import Mathlib

/-!
Formal model of the Canteen discrete-event simulation.

The definitions below are shallow embeddings of the Python sources:
`station.py` (MultiStore, ResourceManager, ProductiveStation,
SelfServiceStation, ServiceStation, Cash), `employee.py`, `customer.py`,
`priority.py` and `canteen.py`.  Quantities are modelled with `ℕ`/`ℤ`
(Python integers) and task durations with `ℝ` (Python floats, including
`math.log`).  Blocking simpy operations are modelled with `Option`:
`none` means the request stays pending and the calling process remains
suspended.
-/

namespace Canteen

set_option maxRecDepth 4000

/-- Priority level `URGENT` (priority.py line 5). -/
def URGENT : ℕ := 5

/-- Priority level `MEDIUM` (priority.py line 6). -/
def MEDIUM : ℕ := 7

/-- Priority level `NORMAL` (priority.py line 7). -/
def NORMAL : ℕ := 10

/-- Priority level `EXTRAORDINARY` (priority.py line 11).  In simpy a
lower numeric value is served first, so this is the maximum priority. -/
def EXTRAORDINARY : ℕ := 1

/-- An employee (employee.py lines 47-65): an experience tier and an
energy score.  Energy is modelled as an integer because the code only
ever subtracts one from it, with no clamping anywhere. -/
structure Employee where
  experience : ℤ
  energy : ℤ
deriving DecidableEq, Repr

/-- `Employee.energy_penalty` (employee.py line 75):
`math.log(101.0 - self.energy) * 0.05`. -/
noncomputable def Employee.energy_penalty (e : Employee) : ℝ :=
  Real.log (101.0 - (e.energy : ℝ)) * 0.05

/-- `Employee.experience_penalty` (employee.py line 84):
`0.2 - (self.experience - 1)*0.2`. -/
noncomputable def Employee.experience_penalty (e : Employee) : ℝ :=
  0.2 - ((e.experience : ℝ) - 1) * 0.2

/-- A customer (customer.py lines 107-141); only the speed index is
relevant to the claims below. -/
structure Customer where
  speed : ℤ
deriving DecidableEq, Repr

/-- `Customer.speed_penalty` (customer.py line 150):
`0.3 - self.speed * 0.06`. -/
noncomputable def Customer.speed_penalty (c : Customer) : ℝ :=
  0.3 - (c.speed : ℝ) * 0.06

/-- One simpy `Container`: a bounded counter with a fixed capacity and a
current level. -/
structure Container where
  capacity : ℕ
  level : ℤ
deriving DecidableEq, Repr

/-- The put issued by `MultiStore.put` (station.py line 105): the amount
is clamped with `min(amount, c.capacity - c.level)`, so the resulting
simpy put always fits and succeeds immediately. -/
def Container.putClamped (c : Container) (amount : ℕ) : Container :=
  { c with level := c.level + min (amount : ℤ) ((c.capacity : ℤ) - c.level) }

/-- The get issued by `MultiStore.get` (station.py line 83):
`c.get(amount)` with the exact amount.  Under simpy `Container`
semantics the request completes only once the full `amount` is
available; until then it stays pending (`none`) and the caller stays
suspended. -/
def Container.getExact (c : Container) (amount : ℕ) : Option Container :=
  if (amount : ℤ) ≤ c.level then some { c with level := c.level - (amount : ℤ) }
  else none

/-- Modelled from the spec: the clamping get described in spec §4.3 and
in the docstring of `MultiStore.get` ("the problem ... is corrected by
retrieving the biggest possible amount"): it retrieves
`min(level, amount)` and never suspends.  In the actual code
(station.py line 83) this clamp is commented out. -/
def Container.getClamped (c : Container) (amount : ℕ) : ℤ × Container :=
  let retrieved := min c.level (amount : ℤ)
  (retrieved, { c with level := c.level - retrieved })

/-- `MultiStore` (station.py lines 16-117): one simpy `Container` per
product; products are identified by their index in the list. -/
structure MultiStore where
  containers : List Container
deriving DecidableEq, Repr

/-- `MultiStore.get` (station.py lines 65-83): route the get request to
the container of the product.  `none` when the request stays pending. -/
def MultiStore.get (s : MultiStore) (p : ℕ) (amount : ℕ) : Option MultiStore :=
  match s.containers[p]? with
  | some c => (c.getExact amount).map fun c2 => ⟨s.containers.set p c2⟩
  | none => none

/-- `MultiStore.put` (station.py lines 88-105): route the put request to
the container of the product; the amount is clamped so the put always
succeeds immediately.  A product outside the range leaves the store
unchanged (the code would raise a `KeyError`; the claims only involve
handled products). -/
def MultiStore.put (s : MultiStore) (p : ℕ) (amount : ℕ) : MultiStore :=
  match s.containers[p]? with
  | some c => ⟨s.containers.set p (c.putClamped amount)⟩
  | none => s

/-- `MultiStore.level` (station.py lines 109-117). -/
def MultiStore.level (s : MultiStore) (p : ℕ) : ℤ :=
  ((s.containers[p]?).map Container.level).getD 0

/-- A get or put operation addressed to a `MultiStore`. -/
inductive MSOp where
  | get (p : ℕ) (amount : ℕ)
  | put (p : ℕ) (amount : ℕ)
deriving DecidableEq, Repr

/-- Apply one operation; `none` means the operation cannot complete in
the current state (the get stays pending). -/
def MultiStore.apply (s : MultiStore) (op : MSOp) : Option MultiStore :=
  match op with
  | .get p a => s.get p a
  | .put p a => some (s.put p a)

/-- Run a sequence of operations, each completing in turn. -/
def MultiStore.runOps (s : MultiStore) : List MSOp → Option MultiStore
  | [] => some s
  | op :: ops => (s.apply op).bind fun s2 => s2.runOps ops

/-- The capacity invariant of spec §8: every container holds a level
between zero and its capacity. -/
def MultiStore.inv (s : MultiStore) : Prop :=
  ∀ c ∈ s.containers, 0 ≤ c.level ∧ c.level ≤ (c.capacity : ℤ)

instance (s : MultiStore) : Decidable s.inv := by
  unfold MultiStore.inv
  infer_instance

/-- The error raised by `ResourceManager.releaseResource` (logs.py
lines 20-26). -/
structure ResourceError where
  message : String
deriving DecidableEq, Repr

/-- A priority request sent to an employee, identified by the index of
the employee in the pool and the priority value of the request. -/
structure PRequest where
  emp : ℕ
  prio : ℕ
deriving DecidableEq, Repr

/-- The arbiter state of `ResourceManager` (station.py lines 122-142):
the size of the employee pool and the employee held by the current
request, if any (the code stores the winning `PriorityRequest`; its
`resource` field is the employee). -/
structure ResourceManager where
  numEmployees : ℕ
  current_request : Option ℕ
deriving DecidableEq, Repr

/-- `ResourceManager.getResource` (station.py lines 145-176).  When no
request is held, one request at `priority_level` is sent to every
employee of the pool, the process suspends until the first one fires
(`winner`, chosen by the scheduler), the winner is recorded and every
request is cancelled — cancelling the already-triggered winner is a
no-op, so only the losing requests are withdrawn.  When a request is
already held, a single request at `EXTRAORDINARY` priority is sent to
that same employee and recorded.  Returns the new state, the requests
sent, and the requests withdrawn by the cancellation step. -/
def ResourceManager.getResource (rm : ResourceManager) (priority_level : ℕ)
    (winner : ℕ) : ResourceManager × List PRequest × List PRequest :=
  match rm.current_request with
  | none =>
      let requests := (List.range rm.numEmployees).map fun e =>
        PRequest.mk e priority_level
      ({ rm with current_request := some winner }, requests,
        requests.filter fun r => r ≠ PRequest.mk winner priority_level)
  | some e =>
      ({ rm with current_request := some e }, [PRequest.mk e EXTRAORDINARY], [])

/-- `ResourceManager.releaseResource` (station.py lines 179-189): raise
a `ResourceError` when no current request is held; otherwise release the
employee of the current request and clear it.  Returns the released
employee together with the new state. -/
def ResourceManager.releaseResource (rm : ResourceManager) :
    Except ResourceError (ℕ × ResourceManager) :=
  match rm.current_request with
  | none => .error ⟨"The resource released was never required"⟩
  | some e => .ok (e, { rm with current_request := none })

/-- The cash point (station.py lines 527-554): a pay time and a
dedicated employee not shared with other stations. -/
structure Cash where
  payTime : ℝ
  employee : Employee

/-- The state effect of `Cash.pay` (station.py line 564): the dedicated
employee loses one unit of energy.  The duration of the suspension is
given by `Cash.payDuration`. -/
def Cash.pay (cash : Cash) (_customer : Customer) : Cash :=
  { cash with employee := { cash.employee with energy := cash.employee.energy - 1 } }

/-- The duration of the suspension in `Cash.pay` (station.py lines
563-565): `payTime * (1.0 + penalty)` with
`penalty = customer.speed_penalty + employee.energy_penalty`, computed
from the energy the employee has on entry (the decrement at line 564
happens after the penalty is read). -/
noncomputable def Cash.payDuration (cash : Cash) (customer : Customer) : ℝ :=
  cash.payTime * (1.0 + (customer.speed_penalty + cash.employee.energy_penalty))

/-- The exit timestamp recorded by `service` (canteen.py lines 28-43)
for a customer whose menu selects only the checkout, with an
uncontended canteen and cash point: the customer is admitted at
`arrival`, pays, and `customer.exit = env.now` is recorded when the
payment completes. -/
noncomputable def onlyCheckoutExit (cash : Cash) (customer : Customer)
    (arrival : ℝ) : ℝ :=
  arrival + cash.payDuration customer

/-- Decrement by one the energy of the employee at index `i`
(`employee.energy -= 1` in station.py). -/
def decEnergyAt (l : List Employee) (i : ℕ) : List Employee :=
  match l[i]? with
  | some e => l.set i { e with energy := e.energy - 1 }
  | none => l

/-- The energy of the employee at index `i` (zero outside the pool). -/
def energyAt (l : List Employee) (i : ℕ) : ℤ :=
  ((l[i]?).map Employee.energy).getD 0

/-- A service station (station.py lines 329-384 and 420-481): its
`MultiStore`, per-product reorder levels, the per-station
`waiting_refill` flag, and — as instrumentation — a per-product count of
the `env.process(self.supplier.work(...))` replenishment launches
performed so far (station.py lines 413 and 520). -/
structure SStation where
  store : MultiStore
  reorder_levels : List ℕ
  waiting_refill : Bool
  launched : List ℕ
deriving DecidableEq, Repr

/-- The reorder level of product `p` at a service station. -/
def reorderAt (st : SStation) (p : ℕ) : ℤ :=
  (((st.reorder_levels[p]?).map fun n => (n : ℤ)).getD 0)

/-- The number of replenishment `work()` launches recorded for `p`. -/
def launchedAt (st : SStation) (p : ℕ) : ℕ :=
  (st.launched[p]?).getD 0

/-- Increment the counter at index `i`. -/
def incAt (l : List ℕ) (i : ℕ) : List ℕ :=
  match l[i]? with
  | some x => l.set i (x + 1)
  | none => l

/-- The reorder check shared by both serve variants (station.py lines
411-413 and 518-520): when the remaining level is at or below the
reorder level and the station is not already waiting for a refill, set
`waiting_refill` and start one replenishment `work()` for the product. -/
def reorderCheck (st : SStation) (p : ℕ) : SStation :=
  if st.store.level p ≤ reorderAt st p ∧ st.waiting_refill = false then
    { st with waiting_refill := true, launched := incAt st.launched p }
  else st

/-- `SelfServiceStation.serve` (station.py lines 387-413): take one unit
of the product (suspending while the station is empty), wait the
service time, then run the reorder check.  `none` when the get stays
pending. -/
def SelfServiceStation.serve (st : SStation) (p : ℕ) : Option SStation :=
  (st.store.get p 1).map fun store1 => reorderCheck { st with store := store1 } p

/-- The state of an attended `ServiceStation` (station.py lines
420-481): the station data plus the employee pool and the arbiter's
current request. -/
structure ServiceState where
  station : SStation
  employees : List Employee
  current_request : Option ℕ
deriving DecidableEq, Repr

/-- `ServiceStation.serve` (station.py lines 484-520): take one unit of
the product, acquire an employee through the arbiter (`winner` chosen by
the scheduler), wait the service time, decrement the employee's energy,
release the employee, then run the reorder check. -/
def ServiceStation.serve (st : ServiceState) (p : ℕ) (priority_level : ℕ)
    (winner : ℕ) : Option ServiceState := do
  let store1 ← st.station.store.get p 1
  let rm1 := (ResourceManager.getResource ⟨st.employees.length, st.current_request⟩
    priority_level winner).1
  let e ← rm1.current_request
  let _ ← st.employees[e]?
  let employees1 := decEnergyAt st.employees e
  let (_, rm2) ← rm1.releaseResource.toOption
  some ⟨reorderCheck { st.station with store := store1 } p, employees1,
    rm2.current_request⟩

/-- Run a sequence of self-service serves (one product each). -/
def runSelfServes (st : SStation) : List ℕ → Option SStation
  | [] => some st
  | p :: ps => (SelfServiceStation.serve st p).bind fun st2 => runSelfServes st2 ps

/-- Run a sequence of attended serves, each given as
(product, priority level, winning employee). -/
def runAttServes (st : ServiceState) : List (ℕ × ℕ × ℕ) → Option ServiceState
  | [] => some st
  | a :: as_ => (ServiceStation.serve st a.1 a.2.1 a.2.2).bind fun st2 =>
      runAttServes st2 as_

/-- The state of a `ProductiveStation` (station.py lines 194-250): the
employee pool, the arbiter's current request, and the station's own
`MultiStore` (initialised empty by the constructor). -/
structure ProductiveState where
  employees : List Employee
  current_request : Option ℕ
  store : MultiStore
deriving DecidableEq, Repr

/-- The configuration of one `work` run (station.py lines 255-261):
the per-product `keep` flag and the priority arguments.  The batch size
is the capacity of the product's container (`self.capacities[product]`,
line 295).  The code declares `service_priority` but the re-acquisition
at line 311 hardcodes `priority.MEDIUM`. -/
structure WorkCfg where
  keep : Bool
  production_priority : ℕ
  service_priority : ℕ
deriving DecidableEq, Repr

/-- The observable events of a `work` run, in program order.  The wait
events carry a snapshot of the employee whose penalties scale the
suspension, exactly as the code reads it: lines 294-297 read the
penalties once at acquisition for both the preparation and the
production wait, line 316 re-reads them (after the energy decrement of
line 307) for the refill wait. -/
inductive WEvent where
  | acquire (emp : ℕ) (prio : ℕ)
  | waitPrep (e : Employee)
  | waitProd (e : Employee)
  | waitRefill (e : Employee)
  | release (emp : ℕ)
  | decEnergy (emp : ℕ)
  | putSelf (p : ℕ) (amount : ℕ)
  | getSelf (p : ℕ) (amount : ℕ)
  | putTarget (p : ℕ) (amount : ℕ)
  | clearRefill
deriving DecidableEq, Repr

/-- The base times of one `work` run: the station's
`production_times[product]` and `preparation_times[product]`
(station.py lines 245-246) and the target station's
`refilling_times[product]` (line 317). -/
structure WorkTimes where
  production_time : ℝ
  preparation_time : ℝ
  refilling_time : ℝ

/-- The duration of a wait event (station.py lines 296-297, 299, 304 and
317): the base time scaled by
`1.0 + energy_penalty + experience_penalty` of the employee snapshot
carried by the event. -/
noncomputable def waitDuration (tms : WorkTimes) : WEvent → ℝ
  | .waitPrep e => tms.preparation_time * (1.0 + (e.energy_penalty + e.experience_penalty))
  | .waitProd e => tms.production_time * (1.0 + (e.energy_penalty + e.experience_penalty))
  | .waitRefill e => tms.refilling_time * (1.0 + (e.energy_penalty + e.experience_penalty))
  | _ => 0

/-- `ProductiveStation.work` (station.py lines 255-325), translated line
by line.  `w1`/`w2` are the employees the scheduler lets win the two
possible broadcasts.  Returns the final station state, the final target
station, and the event trace; `none` when a step cannot complete (an
index outside the pool, a missing product, or the final exact get of
line 322 staying pending). -/
def ProductiveStation.work (cfg : WorkCfg) (p : ℕ) (w1 w2 : ℕ)
    (st : ProductiveState) (target : SStation) :
    Option (ProductiveState × SStation × List WEvent) := do
  let n := st.employees.length
  -- lines 288-291: wait for a resource
  let rm1 := (ResourceManager.getResource ⟨n, st.current_request⟩
    cfg.production_priority w1).1
  let e1 ← rm1.current_request
  let emp1 ← st.employees[e1]?
  -- line 295: the batch size is the capacity of the product's container
  let c ← st.store.containers[p]?
  let capacity := c.capacity
  -- line 299: prepare everything
  let ev0 : List WEvent := [.acquire e1 cfg.production_priority, .waitPrep emp1]
  -- lines 301-302: if the employee is not needed it is released
  let (rm2, ev1) ←
    if cfg.keep then some (rm1, ev0)
    else (rm1.releaseResource.toOption).map fun r => (r.2, ev0 ++ [WEvent.release e1])
  -- lines 304-307: produce, store the batch, reduce the energy
  let store1 := st.store.put p capacity
  let employees1 := decEnergyAt st.employees e1
  let ev2 := ev1 ++ [WEvent.waitProd emp1, .putSelf p capacity, .decEnergy e1]
  -- lines 310-313: if the resource was released, a new one is required
  let (rm3, e2, ev3) ←
    if cfg.keep then some (rm2, e1, ev2)
    else
      let rm4 := (ResourceManager.getResource ⟨n, rm2.current_request⟩ MEDIUM w2).1
      (rm4.current_request).map fun e => (rm4, e, ev2 ++ [WEvent.acquire e MEDIUM])
  let emp2 ← employees1[e2]?
  -- lines 316-319: refill the service station, reduce the energy
  let employees2 := decEnergyAt employees1 e2
  let ev4 := ev3 ++ [WEvent.waitRefill emp2, .decEnergy e2]
  -- lines 322-325: move the batch to the service station and conclude
  let store2 ← store1.get p capacity
  let target1 : SStation :=
    { target with store := target.store.put p capacity, waiting_refill := false }
  let (_, rm5) ← rm3.releaseResource.toOption
  some (⟨employees2, rm5.current_request, store2⟩, target1,
    ev4 ++ [WEvent.getSelf p capacity, .putTarget p capacity, .clearRefill,
      .release e2])

/-- Modelled from the claim's words, for comparison with
`ProductiveStation.work`: the same cycle, but the energy decrement after
the production delay happens only if the employee is still held (keep
flag set); when the employee was released, the cycle only re-acquires
one at `MEDIUM` priority, and no decrement accompanies the refill
delay. -/
def ProductiveStation.workClaimed (cfg : WorkCfg) (p : ℕ) (w1 w2 : ℕ)
    (st : ProductiveState) (target : SStation) :
    Option (ProductiveState × SStation × List WEvent) := do
  let n := st.employees.length
  let rm1 := (ResourceManager.getResource ⟨n, st.current_request⟩
    cfg.production_priority w1).1
  let e1 ← rm1.current_request
  let emp1 ← st.employees[e1]?
  let c ← st.store.containers[p]?
  let capacity := c.capacity
  let ev0 : List WEvent := [.acquire e1 cfg.production_priority, .waitPrep emp1]
  let (rm2, ev1) ←
    if cfg.keep then some (rm1, ev0)
    else (rm1.releaseResource.toOption).map fun r => (r.2, ev0 ++ [WEvent.release e1])
  let store1 := st.store.put p capacity
  -- the claim: decrement only if the employee is held
  let employees1 := if cfg.keep then decEnergyAt st.employees e1 else st.employees
  let ev2 := ev1 ++ [WEvent.waitProd emp1, .putSelf p capacity] ++
    (if cfg.keep then [WEvent.decEnergy e1] else [])
  let (rm3, e2, ev3) ←
    if cfg.keep then some (rm2, e1, ev2)
    else
      let rm4 := (ResourceManager.getResource ⟨n, rm2.current_request⟩ MEDIUM w2).1
      (rm4.current_request).map fun e => (rm4, e, ev2 ++ [WEvent.acquire e MEDIUM])
  let emp2 ← employees1[e2]?
  -- the claim: then perform the refill delay and release, no decrement
  let ev4 := ev3 ++ [WEvent.waitRefill emp2]
  let store2 ← store1.get p capacity
  let target1 : SStation :=
    { target with store := target.store.put p capacity, waiting_refill := false }
  let (_, rm5) ← rm3.releaseResource.toOption
  some (⟨employees1, rm5.current_request, store2⟩, target1,
    ev4 ++ [WEvent.getSelf p capacity, .putTarget p capacity, .clearRefill,
      .release e2])

/-- Scan a `work` trace tracking which employee is currently held, and
check that every energy decrement targets the employee held at that
moment. -/
def holderOk (h : Option ℕ) : List WEvent → Bool
  | [] => true
  | ev :: rest =>
      match ev with
      | .acquire e _ => holderOk (some e) rest
      | .release _ => holderOk none rest
      | .decEnergy e => (h == some e) && holderOk h rest
      | _ => holderOk h rest

/-- `n` consecutive checkouts at the same cash point (each `Cash.pay`
decrements the dedicated employee's energy by one, station.py line
564); the customer's speed never affects the energy. -/
def iterPay (n : ℕ) (cash : Cash) : Cash :=
  match n with
  | 0 => cash
  | n + 1 => iterPay n (cash.pay ⟨0⟩)

/-! ## Theorems -/

/-- Every container reachable through one completed get or put keeps the
capacity invariant: the clamped put of `MultiStore.put` never pushes a
level above the capacity, and a get only completes when the full amount
is on hand, so it never drives a level below zero. -/
theorem MultiStore.apply_inv {s s2 : MultiStore} {op : MSOp}
    (hinv : s.inv) (h : s.apply op = some s2) : s2.inv := by
  cases op with
  | get p a =>
      simp only [MultiStore.apply, MultiStore.get] at h
      cases hc : s.containers[p]? with
      | none => rw [hc] at h; simp at h
      | some c =>
          rw [hc] at h
          simp only [Container.getExact] at h
          by_cases hle : (a : ℤ) ≤ c.level
          · rw [if_pos hle] at h
            simp only [Option.map_some'] at h
            cases h
            intro c2 hc2
            rcases List.mem_or_eq_of_mem_set hc2 with hmem | heq
            · exact hinv c2 hmem
            · subst heq
              have hcmem : c ∈ s.containers := List.getElem?_mem hc
              have := hinv c hcmem
              refine ⟨?_, ?_⟩ <;> · dsimp only; omega
          · rw [if_neg hle] at h; simp at h
  | put p a =>
      simp only [MultiStore.apply, Option.some.injEq, MultiStore.put] at h
      cases hc : s.containers[p]? with
      | none => rw [hc] at h; cases h; exact hinv
      | some c =>
          rw [hc] at h
          cases h
          intro c2 hc2
          rcases List.mem_or_eq_of_mem_set hc2 with hmem | heq
          · exact hinv c2 hmem
          · subst heq
            have hcmem : c ∈ s.containers := List.getElem?_mem hc
            have := hinv c hcmem
            simp only [Container.putClamped]
            refine ⟨?_, ?_⟩ <;> · dsimp only; omega

/-- C2: for every container of every station, any sequence of completed
get and put operations preserves `0 ≤ level ≤ capacity`: the clamped
`MultiStore.put` stores only `min(amount, capacity - level)`, so no put
pushes a level above its capacity, and no completed get drives it below
zero. -/
theorem container_level_invariant (s s2 : MultiStore) (ops : List MSOp)
    (hinv : s.inv) (h : s.runOps ops = some s2) : s2.inv := by
  induction ops generalizing s with
  | nil => simp only [MultiStore.runOps, Option.some.injEq] at h; cases h; exact hinv
  | cons op ops ih =>
      simp only [MultiStore.runOps, Option.bind_eq_some] at h
      obtain ⟨s1, h1, h2⟩ := h
      exact ih s1 (MultiStore.apply_inv hinv h1) h2

/-- Witness for C2: a put of 5 into a full container of capacity 3
followed by a get of 2 keeps the invariant. -/
theorem container_level_invariant_witness : MultiStore.inv ⟨[⟨3, 1⟩]⟩ :=
  container_level_invariant ⟨[⟨3, 3⟩]⟩ ⟨[⟨3, 1⟩]⟩
    [.put 0 5, .get 0 2] (by decide) (by decide)

/-- C1: the code of `MultiStore.get` (station.py line 83) does not use
the clamping semantics its own docstring and the spec describe.  At a
container with capacity 3 and level 1, a get of 2 stays pending
(nothing is retrieved and the caller suspends), whereas the clamping
semantics would retrieve `min(level, amount) = 1` immediately and leave
the level at 0. -/
theorem multiStore_get_blocks_instead_of_clamping :
    MultiStore.get ⟨[⟨3, 1⟩]⟩ 0 2 = none ∧
    (Container.getClamped ⟨3, 1⟩ 2).1 = 1 ∧
    (Container.getClamped ⟨3, 1⟩ 2).2.level = 0 := by decide

/-- C4: `ResourceManager.releaseResource` fails if and only if it is
called while no current request is held, returning the `ResourceError`
raised at station.py line 185; when a request is held, it releases that
employee's resource and clears the current request.  The `Except` value
is returned to the caller, never swallowed. -/
theorem releaseResource_error_iff (rm : ResourceManager) :
    ((∃ err, rm.releaseResource = .error err) ↔ rm.current_request = none) ∧
    (rm.current_request = none →
      rm.releaseResource = .error ⟨"The resource released was never required"⟩) ∧
    (∀ e, rm.current_request = some e →
      rm.releaseResource = .ok (e, { rm with current_request := none })) := by
  obtain ⟨n, cur⟩ := rm
  cases cur <;> simp [ResourceManager.releaseResource]

/-- Witness for C4: with no current request the release fails with the
exact error; with a held request it releases employee 0 and clears the
request. -/
theorem releaseResource_error_iff_witness :
    ResourceManager.releaseResource ⟨2, none⟩ =
      .error ⟨"The resource released was never required"⟩ ∧
    ResourceManager.releaseResource ⟨2, some 0⟩ = .ok (0, ⟨2, none⟩) :=
  ⟨(releaseResource_error_iff ⟨2, none⟩).2.1 rfl,
   (releaseResource_error_iff ⟨2, some 0⟩).2.2 0 rfl⟩

/-- C3: `ResourceManager.getResource`.  With no held request, one
request at `priority_level` is broadcast to every employee of the pool,
the winner is recorded as the current request, and every request other
than the already-triggered winner is withdrawn by the cancellation
step.  With a held request, the only request sent goes to the held
employee, at the `EXTRAORDINARY` priority — the numerically smallest,
hence maximum, priority level — so no other pool member receives a
request, and nothing needs cancelling. -/
theorem getResource_protocol (rm : ResourceManager) (pl w : ℕ) :
    (rm.current_request = none →
      (∀ e < rm.numEmployees, PRequest.mk e pl ∈ (rm.getResource pl w).2.1) ∧
      (∀ r ∈ (rm.getResource pl w).2.1, r.prio = pl) ∧
      (rm.getResource pl w).1.current_request = some w ∧
      (∀ r ∈ (rm.getResource pl w).2.1,
        r = PRequest.mk w pl ∨ r ∈ (rm.getResource pl w).2.2)) ∧
    (∀ e, rm.current_request = some e →
      (rm.getResource pl w).2.1 = [PRequest.mk e EXTRAORDINARY] ∧
      (rm.getResource pl w).1.current_request = some e ∧
      (∀ r ∈ (rm.getResource pl w).2.1, r.emp = e) ∧
      (rm.getResource pl w).2.2 = []) ∧
    EXTRAORDINARY < URGENT ∧ EXTRAORDINARY < MEDIUM ∧ EXTRAORDINARY < NORMAL := by
  obtain ⟨n, cur⟩ := rm
  cases cur with
  | none =>
      refine ⟨fun _ => ⟨?_, ?_, rfl, ?_⟩, ?_, by decide, by decide, by decide⟩
      · intro e he
        simp only [ResourceManager.getResource, List.mem_map, List.mem_range]
        exact ⟨e, he, rfl⟩
      · intro r hr
        simp only [ResourceManager.getResource, List.mem_map, List.mem_range] at hr
        obtain ⟨e, -, rfl⟩ := hr
        rfl
      · intro r hr
        by_cases hreq : r = PRequest.mk w pl
        · exact Or.inl hreq
        · refine Or.inr ?_
          simp only [ResourceManager.getResource, List.mem_filter] at hr ⊢
          exact ⟨hr, by simpa using hreq⟩
      · intro e he
        simp at he
  | some e0 =>
      refine ⟨fun h => by simp at h, ?_, by decide, by decide, by decide⟩
      intro e he
      obtain rfl : e0 = e := by simpa using he
      refine ⟨rfl, rfl, ?_, rfl⟩
      intro r hr
      obtain rfl : r = PRequest.mk e0 EXTRAORDINARY := by
        simpa [ResourceManager.getResource] using hr
      rfl

/-- Witness for C3: in a pool of three employees with employee 2 already
held, the single request goes to employee 2 at `EXTRAORDINARY`
priority. -/
theorem getResource_protocol_witness :
    (ResourceManager.getResource ⟨3, some 2⟩ NORMAL 0).2.1 =
      [PRequest.mk 2 EXTRAORDINARY] :=
  ((getResource_protocol ⟨3, some 2⟩ NORMAL 0).2.1 2 rfl).1

/-- C7: `Cash.pay` decrements the checkout employee's energy by one and
suspends for `pay_time * (1 + speed_penalty + energy_penalty)`, the
energy penalty taken at the energy the employee has on entry; the
customer's exit timestamp recorded by `service` equals the arrival plus
that duration.  For one checkout with `pay_time = 5.0`, a customer with
`speed = 0` whose menu selects only the checkout, and a checkout
employee at energy 100, the exit timestamp is
`arrival + 5.0 * (1 + 0.3 + energy_penalty_at_100)`. -/
theorem cash_pay_timing (cash : Cash) (customer : Customer) (arrival : ℝ) :
    (cash.pay customer).employee.energy = cash.employee.energy - 1 ∧
    cash.payDuration customer =
      cash.payTime * (1 + (customer.speed_penalty + cash.employee.energy_penalty)) ∧
    onlyCheckoutExit cash customer arrival = arrival + cash.payDuration customer ∧
    (cash.payTime = 5 → customer.speed = 0 → cash.employee.energy = 100 →
      onlyCheckoutExit cash customer arrival =
        arrival + 5 * (1 + 0.3 + Employee.energy_penalty ⟨0, 100⟩)) := by
  refine ⟨rfl, by norm_num [Cash.payDuration], rfl, ?_⟩
  intro h1 h2 h3
  simp only [onlyCheckoutExit, Cash.payDuration, Customer.speed_penalty,
    Employee.energy_penalty, h1, h2, h3]
  push_cast
  ring_nf

/-- Witness for C7: the concrete checkout scenario of spec §8. -/
theorem cash_pay_timing_witness :
    onlyCheckoutExit ⟨5, ⟨0, 100⟩⟩ ⟨0⟩ 0 =
      0 + 5 * (1 + 0.3 + Employee.energy_penalty ⟨0, 100⟩) :=
  (cash_pay_timing ⟨5, ⟨0, 100⟩⟩ ⟨0⟩ 0).2.2.2 rfl rfl rfl

/-- C5, counterexample: with the keep flag false, the code of `work`
(station.py line 307) decrements the energy of the employee that was
already released at line 302, before re-acquiring one, whereas the
claimed cycle decrements the employee only if held.  Two employees at
energies 50 and 60 end at 49 and 59 under the code, but would stay at
50 and 60 under the claimed cycle. -/
theorem work_decrements_released_employee :
    ((ProductiveStation.work ⟨false, NORMAL, MEDIUM⟩ 0 0 1
        ⟨[⟨1, 50⟩, ⟨1, 60⟩], none, ⟨[⟨4, 0⟩]⟩⟩
        ⟨⟨[⟨4, 0⟩]⟩, [0], true, [0]⟩).map fun r => r.1.employees) =
      some [⟨1, 49⟩, ⟨1, 59⟩] ∧
    ((ProductiveStation.workClaimed ⟨false, NORMAL, MEDIUM⟩ 0 0 1
        ⟨[⟨1, 50⟩, ⟨1, 60⟩], none, ⟨[⟨4, 0⟩]⟩⟩
        ⟨⟨[⟨4, 0⟩]⟩, [0], true, [0]⟩).map fun r => r.1.employees) =
      some [⟨1, 50⟩, ⟨1, 60⟩] := by decide

/-- C8, counterexample: energies are not bounded below by zero — after
101 checkouts, the cash-point employee who started at energy 100 stands
at energy -1 (no operation ever clamps the decrement of station.py line
564) — and energy is not mutated only by a process holding the
employee: in a `work` run with the keep flag false, the decrement of
station.py line 307 hits employee 0 after that employee was released at
line 302, so the holder scan of the trace fails. -/
theorem energy_bounds_counterexample :
    (iterPay 101 ⟨5, ⟨2, 100⟩⟩).employee.energy = -1 ∧
    ((ProductiveStation.work ⟨false, NORMAL, MEDIUM⟩ 0 0 1
        ⟨[⟨1, 50⟩, ⟨1, 60⟩], none, ⟨[⟨4, 0⟩]⟩⟩
        ⟨⟨[⟨4, 0⟩]⟩, [0], true, [0]⟩).map fun r => holderOk none r.2.2) =
      some false := by
  constructor
  · rfl
  · decide

/-- Helper: putting a full batch into an empty container fills it to
capacity, so the exact get of the same amount completes at once and
leaves the container empty again. -/
theorem put_get_cycle (s : MultiStore) (p : ℕ) (c : Container)
    (hc : s.containers[p]? = some c) (hlev : c.level = 0) :
    (s.put p c.capacity).get p c.capacity =
      some ⟨s.containers.set p ⟨c.capacity, 0⟩⟩ := by
  have hp : p < s.containers.length := (List.getElem?_eq_some.mp hc).1
  simp only [MultiStore.put, hc, MultiStore.get, Container.putClamped, hlev,
    List.getElem?_set_self hp, Container.getExact]
  norm_num

/-- C5, amended: for every product, `work` follows the cycle — acquire
an employee at the production priority; suspend for the preparation
time scaled by `1 + energy_penalty + experience_penalty`; if the
product's keep flag is false, release the employee before the
production delay; after the production delay, increment the station's
own container by the full batch capacity and decrement by one the
energy of the employee who started the production, whether or not that
employee is still held; if one was released, re-acquire an employee at
`MEDIUM` priority; then perform the refill delay scaled by the current
penalties of the now-serving employee, decrement that employee's energy
by one, transfer the batch to the service station, and release the
employee. -/
theorem work_cycle_amended (p w1 w2 pp sp : ℕ) (st : ProductiveState)
    (target : SStation) (tms : WorkTimes) (c : Container)
    (emp1 emp2 : Employee)
    (hcur : st.current_request = none)
    (hw1 : st.employees[w1]? = some emp1)
    (hc : st.store.containers[p]? = some c)
    (hlev : c.level = 0)
    (hw2 : (decEnergyAt st.employees w1)[w2]? = some emp2) :
    ProductiveStation.work ⟨false, pp, sp⟩ p w1 w2 st target =
      some (⟨decEnergyAt (decEnergyAt st.employees w1) w2, none,
              ⟨st.store.containers.set p ⟨c.capacity, 0⟩⟩⟩,
            { target with store := target.store.put p c.capacity,
                          waiting_refill := false },
            [.acquire w1 pp, .waitPrep emp1, .release w1, .waitProd emp1,
             .putSelf p c.capacity, .decEnergy w1, .acquire w2 MEDIUM,
             .waitRefill emp2, .decEnergy w2, .getSelf p c.capacity,
             .putTarget p c.capacity, .clearRefill, .release w2]) ∧
    ProductiveStation.work ⟨true, pp, sp⟩ p w1 w2 st target =
      some (⟨decEnergyAt (decEnergyAt st.employees w1) w1, none,
              ⟨st.store.containers.set p ⟨c.capacity, 0⟩⟩⟩,
            { target with store := target.store.put p c.capacity,
                          waiting_refill := false },
            [.acquire w1 pp, .waitPrep emp1, .waitProd emp1,
             .putSelf p c.capacity, .decEnergy w1,
             .waitRefill ⟨emp1.experience, emp1.energy - 1⟩, .decEnergy w1,
             .getSelf p c.capacity, .putTarget p c.capacity, .clearRefill,
             .release w1]) ∧
    waitDuration tms (.waitPrep emp1) =
      tms.preparation_time * (1 + (emp1.energy_penalty + emp1.experience_penalty)) ∧
    waitDuration tms (.waitProd emp1) =
      tms.production_time * (1 + (emp1.energy_penalty + emp1.experience_penalty)) ∧
    waitDuration tms (.waitRefill emp2) =
      tms.refilling_time * (1 + (emp2.energy_penalty + emp2.experience_penalty)) := by
  have hp1 : w1 < st.employees.length := (List.getElem?_eq_some.mp hw1).1
  have hw1m : (decEnergyAt st.employees w1)[w1]? =
      some ⟨emp1.experience, emp1.energy - 1⟩ := by
    simp [decEnergyAt, hw1, List.getElem?_set_self hp1]
  have hw2s : (st.employees.set w1 ⟨emp1.experience, emp1.energy - 1⟩)[w2]? =
      some emp2 := by
    simpa [decEnergyAt, hw1] using hw2
  have hw1ms : (st.employees.set w1 ⟨emp1.experience, emp1.energy - 1⟩)[w1]? =
      some ⟨emp1.experience, emp1.energy - 1⟩ := by
    simpa [decEnergyAt, hw1] using hw1m
  refine ⟨?_, ?_, by norm_num [waitDuration], by norm_num [waitDuration],
    by norm_num [waitDuration]⟩
  · simp only [ProductiveStation.work, hcur, hw1, hc,
      ResourceManager.getResource, ResourceManager.releaseResource,
      Option.bind_eq_bind]
    simp [Except.toOption, decEnergyAt, hw1, hw2s,
      put_get_cycle st.store p c hc hlev]
  · simp only [ProductiveStation.work, hcur, hw1, hc,
      ResourceManager.getResource, ResourceManager.releaseResource,
      Option.bind_eq_bind]
    simp [Except.toOption, decEnergyAt, hw1, hw1ms,
      put_get_cycle st.store p c hc hlev]

/-- Witness for C5: the amended cycle evaluated on a concrete keep=false
run with two employees. -/
theorem work_cycle_amended_witness :
    ProductiveStation.work ⟨false, NORMAL, MEDIUM⟩ 0 0 1
        ⟨[⟨1, 50⟩, ⟨1, 60⟩], none, ⟨[⟨4, 0⟩]⟩⟩
        ⟨⟨[⟨4, 0⟩]⟩, [0], true, [0]⟩ =
      some (⟨[⟨1, 49⟩, ⟨1, 59⟩], none, ⟨[⟨4, 0⟩]⟩⟩,
            ⟨⟨[⟨4, 4⟩]⟩, [0], false, [0]⟩,
            [.acquire 0 NORMAL, .waitPrep ⟨1, 50⟩, .release 0, .waitProd ⟨1, 50⟩,
             .putSelf 0 4, .decEnergy 0, .acquire 1 MEDIUM, .waitRefill ⟨1, 60⟩,
             .decEnergy 1, .getSelf 0 4, .putTarget 0 4, .clearRefill,
             .release 1]) := by
  have h := (work_cycle_amended 0 0 1 NORMAL MEDIUM
    ⟨[⟨1, 50⟩, ⟨1, 60⟩], none, ⟨[⟨4, 0⟩]⟩⟩ ⟨⟨[⟨4, 0⟩]⟩, [0], true, [0]⟩
    ⟨1, 1, 1⟩ ⟨4, 0⟩ ⟨1, 50⟩ ⟨1, 60⟩ rfl rfl rfl rfl (by decide)).1
  exact h.trans (by decide)

/-- C9: the penalty factors are computed by exactly the stated formulas,
for every employee and customer state:
`energy_penalty = ln(101 - energy) * 0.05`,
`experience_penalty = 0.2 - (experience - 1) * 0.2`, and
`speed_penalty = 0.3 - speed * 0.06`.  In the code all three are
read-only properties recomputed at each access, never stored. -/
theorem penalty_formulas (e : Employee) (c : Customer) :
    e.energy_penalty = Real.log (101 - (e.energy : ℝ)) * 0.05 ∧
    e.experience_penalty = 0.2 - ((e.experience : ℝ) - 1) * 0.2 ∧
    c.speed_penalty = 0.3 - (c.speed : ℝ) * 0.06 := by
  refine ⟨?_, rfl, rfl⟩
  unfold Employee.energy_penalty
  norm_num

/-- Helper: whatever completes a `work` run, the resulting employee list
is the initial one with two (possibly coinciding) single-unit energy
decrements, and the target station's `waiting_refill` flag ends false. -/
theorem work_shape {cfg : WorkCfg} {p w1 w2 : ℕ} {st : ProductiveState}
    {target : SStation} {res : ProductiveState × SStation × List WEvent}
    (h : ProductiveStation.work cfg p w1 w2 st target = some res) :
    (∃ e1 e2, res.1.employees = decEnergyAt (decEnergyAt st.employees e1) e2) ∧
    res.2.1.waiting_refill = false := by
  obtain ⟨emps, cur, store⟩ := st
  cases cur with
  | none =>
      by_cases hk : cfg.keep <;>
      · simp only [ProductiveStation.work, hk] at h
        simp [ResourceManager.getResource, ResourceManager.releaseResource,
          Except.toOption, Option.bind_eq_some] at h
        obtain ⟨emp1, hemp1, c, hc, emp2, hemp2, store2, hst2, hres⟩ := h
        subst hres
        exact ⟨⟨_, _, rfl⟩, rfl⟩
  | some e0 =>
      by_cases hk : cfg.keep <;>
      · simp only [ProductiveStation.work, hk] at h
        simp [ResourceManager.getResource, ResourceManager.releaseResource,
          Except.toOption, Option.bind_eq_some] at h
        obtain ⟨emp1, hemp1, c, hc, emp2, hemp2, store2, hst2, hres⟩ := h
        subst hres
        exact ⟨⟨_, _, rfl⟩, rfl⟩

/-- Helper: a single-unit energy decrement never increases any
employee's energy. -/
theorem energyAt_decEnergyAt_le (l : List Employee) (i j : ℕ) :
    energyAt (decEnergyAt l i) j ≤ energyAt l j := by
  unfold decEnergyAt
  cases hi : l[i]? with
  | none => exact le_refl _
  | some e =>
      unfold energyAt
      by_cases hij : i = j
      · subst hij
        have hp : i < l.length := (List.getElem?_eq_some.mp hi).1
        simp [List.getElem?_set_self hp, hi]
      · simp [List.getElem?_set_ne hij]

/-- Helper: every attended serve takes one unit from the store, applies
one energy decrement, and runs the shared reorder check on the station
with the depleted store. -/
theorem attServe_shape {st : ServiceState} {p pl w : ℕ} {st2 : ServiceState}
    (h : ServiceStation.serve st p pl w = some st2) :
    ∃ e store1, st.station.store.get p 1 = some store1 ∧
      st2.employees = decEnergyAt st.employees e ∧
      st2.station = reorderCheck { st.station with store := store1 } p := by
  obtain ⟨station, emps, cur⟩ := st
  cases cur <;>
  · simp [ServiceStation.serve, ResourceManager.getResource,
      ResourceManager.releaseResource, Except.toOption, Option.bind_eq_some] at h
    obtain ⟨store1, hstore1, ⟨emp, hemp⟩, hres⟩ := h
    subst hres
    exact ⟨_, store1, hstore1, rfl, rfl⟩

/-- Helper: the reorder check is a no-op while `waiting_refill` holds. -/
theorem reorderCheck_waiting (st : SStation) (p : ℕ)
    (hw : st.waiting_refill = true) : reorderCheck st p = st := by
  simp [reorderCheck, hw]

/-- Helper: a self-service serve while `waiting_refill` holds never
launches a replenishment and leaves the flag set. -/
theorem selfServe_waiting {st : SStation} {p : ℕ} {st2 : SStation}
    (hw : st.waiting_refill = true)
    (h : SelfServiceStation.serve st p = some st2) :
    st2.launched = st.launched ∧ st2.waiting_refill = true := by
  unfold SelfServiceStation.serve at h
  cases hg : st.store.get p 1 with
  | none => rw [hg] at h; simp at h
  | some s1 =>
      rw [hg] at h
      simp only [Option.map_some', Option.some.injEq] at h
      rw [reorderCheck_waiting _ _ (by simpa using hw)] at h
      subst h
      exact ⟨rfl, hw⟩

/-- Helper: `selfServe_waiting` extended along any serve sequence. -/
theorem runSelfServes_waiting {st : SStation} {ps : List ℕ} {st2 : SStation}
    (hw : st.waiting_refill = true) (h : runSelfServes st ps = some st2) :
    st2.launched = st.launched ∧ st2.waiting_refill = true := by
  induction ps generalizing st with
  | nil => simp only [runSelfServes, Option.some.injEq] at h; subst h; exact ⟨rfl, hw⟩
  | cons q qs ih =>
      simp only [runSelfServes, Option.bind_eq_some] at h
      obtain ⟨s1, h1, h2⟩ := h
      obtain ⟨hl, hwf⟩ := selfServe_waiting hw h1
      obtain ⟨hl2, hwf2⟩ := ih hwf h2
      exact ⟨hl2.trans hl, hwf2⟩

/-- Helper: an attended serve while `waiting_refill` holds never
launches a replenishment and leaves the flag set. -/
theorem attServe_waiting {st : ServiceState} {p pl w : ℕ} {st2 : ServiceState}
    (hw : st.station.waiting_refill = true)
    (h : ServiceStation.serve st p pl w = some st2) :
    st2.station.launched = st.station.launched ∧
    st2.station.waiting_refill = true := by
  obtain ⟨e, store1, -, -, hstation⟩ := attServe_shape h
  rw [hstation, reorderCheck_waiting _ _ (by simpa using hw)]
  exact ⟨rfl, hw⟩

/-- Helper: `attServe_waiting` extended along any serve sequence. -/
theorem runAttServes_waiting {st : ServiceState} {aps : List (ℕ × ℕ × ℕ)}
    {st2 : ServiceState}
    (hw : st.station.waiting_refill = true)
    (h : runAttServes st aps = some st2) :
    st2.station.launched = st.station.launched ∧
    st2.station.waiting_refill = true := by
  induction aps generalizing st with
  | nil => simp only [runAttServes, Option.some.injEq] at h; subst h; exact ⟨rfl, hw⟩
  | cons a as_ ih =>
      simp only [runAttServes, Option.bind_eq_some] at h
      obtain ⟨s1, h1, h2⟩ := h
      obtain ⟨hl, hwf⟩ := attServe_waiting hw h1
      obtain ⟨hl2, hwf2⟩ := ih hwf h2
      exact ⟨hl2.trans hl, hwf2⟩

/-- Helper: a completed get lowers the level of the product by the
amount taken. -/
theorem get_level {s s2 : MultiStore} {p a : ℕ} (h : s.get p a = some s2) :
    s2.level p = s.level p - a := by
  unfold MultiStore.get at h
  cases hc : s.containers[p]? with
  | none => rw [hc] at h; simp at h
  | some c =>
      rw [hc] at h
      simp only [Container.getExact, Option.map_eq_some'] at h
      obtain ⟨c2, hc2, hs2⟩ := h
      by_cases hle : (a : ℤ) ≤ c.level
      · rw [if_pos hle] at hc2
        obtain rfl := Option.some.inj hc2
        subst hs2
        have hp : p < s.containers.length := (List.getElem?_eq_some.mp hc).1
        simp [MultiStore.level, List.getElem?_set_self hp, hc]
      · rw [if_neg hle] at hc2
        exact absurd hc2 (by simp)

/-- Helper: incrementing a counter inside its range adds one to it. -/
theorem incAt_getD (l : List ℕ) (p : ℕ) (hp : p < l.length) :
    ((incAt l p)[p]?).getD 0 = (l[p]?).getD 0 + 1 := by
  cases hl : l[p]? with
  | none => exact absurd (List.getElem?_eq_none_iff.mp hl) (by omega)
  | some x => simp [incAt, hl, List.getElem?_set_self hp]

/-- Helper: a serve that leaves the level at or below the reorder level
with the flag clear sets the flag and records exactly one launch. -/
theorem selfServe_triggers {st : SStation} {p : ℕ} {st2 : SStation}
    (hw : st.waiting_refill = false)
    (hlev : st.store.level p - 1 ≤ reorderAt st p)
    (h : SelfServiceStation.serve st p = some st2) :
    st2.waiting_refill = true ∧ st2.launched = incAt st.launched p := by
  unfold SelfServiceStation.serve at h
  cases hg : st.store.get p 1 with
  | none => rw [hg] at h; simp at h
  | some s1 =>
      rw [hg] at h
      simp only [Option.map_some', Option.some.injEq] at h
      have hcond : s1.level p ≤ reorderAt { st with store := s1 } p ∧
          ({ st with store := s1 } : SStation).waiting_refill = false := by
        refine ⟨?_, by simpa using hw⟩
        have := get_level hg
        simpa [reorderAt, this] using hlev
      rw [reorderCheck, if_pos (by simpa using hcond)] at h
      subst h
      exact ⟨rfl, rfl⟩

/-- Helper: attended version of `selfServe_triggers`. -/
theorem attServe_triggers {st : ServiceState} {p pl w : ℕ} {st2 : ServiceState}
    (hw : st.station.waiting_refill = false)
    (hlev : st.station.store.level p - 1 ≤ reorderAt st.station p)
    (h : ServiceStation.serve st p pl w = some st2) :
    st2.station.waiting_refill = true ∧
    st2.station.launched = incAt st.station.launched p := by
  obtain ⟨e, store1, hg, -, hstation⟩ := attServe_shape h
  have hcond : store1.level p ≤ reorderAt { st.station with store := store1 } p ∧
      ({ st.station with store := store1 } : SStation).waiting_refill = false := by
    refine ⟨?_, by simpa using hw⟩
    have := get_level hg
    simpa [reorderAt, this] using hlev
  rw [hstation, reorderCheck, if_pos (by simpa using hcond)]
  exact ⟨rfl, rfl⟩

/-- C8, amended: an employee's energy is monotonically non-increasing —
every modeled operation (a checkout payment, a completed attended
serve, a completed production `work` run) only ever lowers energies, so
energy never exceeds its initial value.  The code does not clamp energy
at zero, and in `work` with the keep flag false the post-production
decrement targets an employee that has already been released. -/
theorem energy_monotone :
    (∀ cash cust, (Cash.pay cash cust).employee.energy ≤ cash.employee.energy) ∧
    (∀ cfg p w1 w2 st target res,
        ProductiveStation.work cfg p w1 w2 st target = some res →
        ∀ i, energyAt res.1.employees i ≤ energyAt st.employees i) ∧
    (∀ st p pl w st2, ServiceStation.serve st p pl w = some st2 →
        ∀ i, energyAt st2.employees i ≤ energyAt st.employees i) := by
  refine ⟨?_, ?_, ?_⟩
  · intro cash cust
    simp only [Cash.pay]
    omega
  · intro cfg p w1 w2 st target res h i
    obtain ⟨⟨e1, e2, hemp⟩, -⟩ := work_shape h
    rw [hemp]
    exact le_trans (energyAt_decEnergyAt_le _ e2 i) (energyAt_decEnergyAt_le _ e1 i)
  · intro st p pl w st2 h i
    obtain ⟨e, store1, -, hemp, -⟩ := attServe_shape h
    rw [hemp]
    exact energyAt_decEnergyAt_le _ e i

/-- Witness for C8: one attended serve lowers the serving employee's
energy from 50 to 49. -/
theorem energy_monotone_witness :
    energyAt [⟨1, 49⟩] 0 ≤ energyAt [⟨1, 50⟩] 0 :=
  energy_monotone.2.2 ⟨⟨⟨[⟨3, 2⟩]⟩, [0], false, [0]⟩, [⟨1, 50⟩], none⟩ 0 NORMAL 0
    ⟨⟨⟨[⟨3, 1⟩]⟩, [0], false, [0]⟩, [⟨1, 49⟩], none⟩ (by decide) 0

/-- C6: never more than one outstanding replenishment per product.  A
serve launches a `work()` only when the level left behind is at or
below the product's reorder level and `waiting_refill` is false, and it
sets `waiting_refill` before launching; so a station that depletes a
product to its reorder level and keeps serving before the replenishment
completes starts exactly one `work()` for that product — in both the
self-service and the attended variant. -/
theorem single_inflight_replenishment :
    (∀ (st : SStation) (p : ℕ) (ps : List ℕ) (st1 st2 : SStation),
      st.waiting_refill = false →
      p < st.launched.length →
      st.store.level p - 1 ≤ reorderAt st p →
      SelfServiceStation.serve st p = some st1 →
      runSelfServes st1 ps = some st2 →
      st1.waiting_refill = true ∧
      launchedAt st2 p = launchedAt st p + 1) ∧
    (∀ (ast : ServiceState) (q pl w : ℕ) (aps : List (ℕ × ℕ × ℕ))
        (ast1 ast2 : ServiceState),
      ast.station.waiting_refill = false →
      q < ast.station.launched.length →
      ast.station.store.level q - 1 ≤ reorderAt ast.station q →
      ServiceStation.serve ast q pl w = some ast1 →
      runAttServes ast1 aps = some ast2 →
      ast1.station.waiting_refill = true ∧
      launchedAt ast2.station q = launchedAt ast.station q + 1) := by
  constructor
  · intro st p ps st1 st2 hw hp hlev hserve hrun
    obtain ⟨hw1, hl1⟩ := selfServe_triggers hw hlev hserve
    obtain ⟨hl2, -⟩ := runSelfServes_waiting hw1 hrun
    refine ⟨hw1, ?_⟩
    unfold launchedAt
    rw [hl2, hl1]
    exact incAt_getD st.launched p hp
  · intro ast q pl w aps ast1 ast2 hw hp hlev hserve hrun
    obtain ⟨hw1, hl1⟩ := attServe_triggers hw hlev hserve
    obtain ⟨hl2, -⟩ := runAttServes_waiting hw1 hrun
    refine ⟨hw1, ?_⟩
    unfold launchedAt
    rw [hl2, hl1]
    exact incAt_getD ast.station.launched q hp

/-- Witness for C6: a self-service station with capacity 3, level 2 and
reorder level 1 serves two customers in a row; the first serve triggers
exactly one replenishment launch and the second launches nothing. -/
theorem single_inflight_replenishment_witness :
    (⟨⟨[⟨3, 1⟩]⟩, [1], true, [1]⟩ : SStation).waiting_refill = true ∧
    launchedAt ⟨⟨[⟨3, 0⟩]⟩, [1], true, [1]⟩ 0 =
      launchedAt ⟨⟨[⟨3, 2⟩]⟩, [1], false, [0]⟩ 0 + 1 :=
  single_inflight_replenishment.1 ⟨⟨[⟨3, 2⟩]⟩, [1], false, [0]⟩ 0 [0]
    ⟨⟨[⟨3, 1⟩]⟩, [1], true, [1]⟩ ⟨⟨[⟨3, 0⟩]⟩, [1], true, [1]⟩
    rfl (by decide) (by decide) (by decide) (by decide)

/-- C10: the `waiting_refill` guard is a single per-station boolean
shared by all of that station's products: while it is set, neither
serve variant launches a replenishment for any product — even one whose
level is at or below its own reorder level — and the flag is cleared by
the in-flight `work()` at hand-off, as part of the final transfer. -/
theorem waiting_refill_station_wide :
    (∀ (st : SStation) (q : ℕ) (st2 : SStation),
      st.waiting_refill = true →
      SelfServiceStation.serve st q = some st2 →
      st2.launched = st.launched ∧ st2.waiting_refill = true) ∧
    (∀ (ast : ServiceState) (q pl w : ℕ) (ast2 : ServiceState),
      ast.station.waiting_refill = true →
      ServiceStation.serve ast q pl w = some ast2 →
      ast2.station.launched = ast.station.launched ∧
      ast2.station.waiting_refill = true) ∧
    (∀ cfg p w1 w2 pst tgt res,
      ProductiveStation.work cfg p w1 w2 pst tgt = some res →
      res.2.1.waiting_refill = false) := by
  refine ⟨?_, ?_, ?_⟩
  · intro st q st2 hw h
    exact selfServe_waiting hw h
  · intro ast q pl w ast2 hw h
    exact attServe_waiting hw h
  · intro cfg p w1 w2 pst tgt res h
    exact (work_shape h).2

/-- Witness for C10: with the flag set by a replenishment of product 0,
a serve of product 1 — whose level 0 is below its reorder level 1 —
launches nothing. -/
theorem waiting_refill_station_wide_witness :
    (⟨⟨[⟨3, 3⟩, ⟨3, 0⟩]⟩, [0, 1], true, [0, 0]⟩ : SStation).launched =
      (⟨⟨[⟨3, 3⟩, ⟨3, 1⟩]⟩, [0, 1], true, [0, 0]⟩ : SStation).launched ∧
    (⟨⟨[⟨3, 3⟩, ⟨3, 0⟩]⟩, [0, 1], true, [0, 0]⟩ : SStation).waiting_refill = true :=
  waiting_refill_station_wide.1 ⟨⟨[⟨3, 3⟩, ⟨3, 1⟩]⟩, [0, 1], true, [0, 0]⟩ 1
    ⟨⟨[⟨3, 3⟩, ⟨3, 0⟩]⟩, [0, 1], true, [0, 0]⟩ rfl (by decide)

end Canteen
